import Mathlib

/-!
Shallow embedding of the book-app backend (FastAPI + SQLAlchemy + SQLite).

The store is modelled as the list of persisted rows in primary-key
(insertion) order; `SQLBookRepository` operations are translated from
`src/backend/app/repositories/sql_book_repository.py`, the service from
`src/backend/app/services/book_service.py`, and the endpoint/validation
layer from `src/backend/app/api/books.py` and `src/backend/app/schemas.py`.
-/

namespace BookApp

/-- The `Book` row from `app/models.py`: integer primary key `id`, string
columns `title`, `author`, `created_by`, and the `created_on` timestamp.
SQLite stores `DateTime` values as text, so `created_on` is carried as the
stored string. -/
structure Book where
  id : Nat
  title : String
  author : String
  created_on : String
  created_by : String
deriving DecidableEq, Repr

/-- `likeAux f s` checks `f` on every suffix of `s` (including `s` itself
and `[]`): this is how a `%` wildcard consumes an arbitrary run of
characters. -/
def likeAux (f : List Char → Bool) : List Char → Bool
  | [] => f []
  | c :: s => f (c :: s) || likeAux f s

/-- SQLite's `LIKE` pattern interpreter over decoded characters: `%`
matches any sequence of characters, `_` matches exactly one character, and
every other pattern character matches one character up to ASCII case
folding (SQLite's LIKE folds only A–Z, which is exactly `Char.toLower`).
There is no ESCAPE clause: SQLAlchemy's `contains` keeps its default
`autoescape=False`, so `%` and `_` inside the criterion retain their
wildcard meaning. -/
def likeMatchChars : List Char → List Char → Bool
  | [], s => s.isEmpty
  | p :: ps, s =>
    if p == '%' then likeAux (likeMatchChars ps) s
    else
      match s with
      | [] => false
      | c :: s' => (p == '_' || p.toLower == c.toLower) && likeMatchChars ps s'

/-- SQLAlchemy `column.contains(pat)` compiles to
`column LIKE '%' || pat || '%'` with no ESCAPE, evaluated by SQLite's
`LIKE`. -/
def likeContains (field pat : String) : Bool :=
  likeMatchChars ('%' :: pat.data ++ ['%']) field.data

/-- A criterion containing neither LIKE wildcard (`%` or `_`); for such
criteria LIKE containment degenerates to a case-insensitive substring
test. -/
def noWildcards : List Char → Bool
  | [] => true
  | c :: p => !(c == '%') && !(c == '_') && noWildcards p

/-- Python truthiness of an `Optional[str]`: `None` and `""` are falsy.
The repository's `search` adds a condition for a criterion only when the
criterion is truthy (`if title:` ...). -/
def truthy : Option String → Bool
  | none => false
  | some s => s != ""

/-- Whether the condition contributed by one criterion is present and
satisfied by the given field value: absent or empty criteria contribute no
condition, a truthy criterion contributes `field LIKE '%crit%'`. -/
def condMatches (crit : Option String) (field : String) : Bool :=
  match crit with
  | none => false
  | some c => if c == "" then false else likeContains field c

namespace SQLBookRepository

/-- `get_by_id`: `query(Book).filter(Book.id == book_id).first()`. -/
def get_by_id (st : List Book) (book_id : Nat) : Option Book :=
  st.find? (fun b => b.id == book_id)

/-- `get_all(skip, limit)`: `query(Book).offset(skip).limit(limit).all()` in
store-default (primary-key) order. -/
def get_all (st : List Book) (skip limit : Nat) : List Book :=
  (st.drop skip).take limit

/-- The attribute names of a `Book` row that `hasattr(book, field)` reports
for the mapped columns. -/
def bookAttrs : List String := ["id", "title", "author", "created_on", "created_by"]

def hasattrBook (f : String) : Bool := bookAttrs.contains f

/-- `setattr(book, field, value)` for a string value. The integer primary
key `id` cannot receive a string in this typed embedding (no caller passes
an `id` key; `BookUpdate` only produces `title`/`author`), so that case is
a no-op here. -/
def setattrBook (b : Book) (f : String) (v : String) : Book :=
  if f == "title" then { b with title := v }
  else if f == "author" then { b with author := v }
  else if f == "created_on" then { b with created_on := v }
  else if f == "created_by" then { b with created_by := v }
  else b

/-- The update loop of `SQLBookRepository.update`:
`for field, value in book_update.items(): if hasattr(book, field) and value
is not None: setattr(book, field, value)`. The dict is carried as an
association list of key/optional-value pairs. -/
def applyUpdate (b : Book) (d : List (String × Option String)) : Book :=
  d.foldl
    (fun acc kv =>
      match kv.2 with
      | some v => if hasattrBook kv.1 then setattrBook acc kv.1 v else acc
      | none => acc)
    b

/-- `update(book_id, book_update)`: look the row up, return `None` leaving
the store untouched when absent, otherwise apply the provided fields and
commit the mutated row in place. -/
def update (st : List Book) (book_id : Nat) (d : List (String × Option String)) :
    Option Book × List Book :=
  match get_by_id st book_id with
  | none => (none, st)
  | some b =>
      let b2 := applyUpdate b d
      (some b2, st.map (fun x => if x.id == book_id then b2 else x))

/-- `delete(book_id)`: look the row up, return `False` when absent,
otherwise delete that row and return `True`. -/
def delete (st : List Book) (book_id : Nat) : Bool × List Book :=
  match get_by_id st book_id with
  | none => (false, st)
  | some _ => (true, st.eraseP (fun b => b.id == book_id))

/-- `search(title, author, created_by)`: collect a `contains` condition for
each truthy criterion, filter with `or_(*conditions)` when any condition
exists, otherwise return the whole table. -/
def search (st : List Book) (title author created_by : Option String) : List Book :=
  if truthy title || truthy author || truthy created_by then
    st.filter (fun b =>
      condMatches title b.title || condMatches author b.author ||
        condMatches created_by b.created_by)
  else st

/-- `search_by_title(title)`: `filter(Book.title.contains(title)).all()`. -/
def search_by_title (st : List Book) (t : String) : List Book :=
  st.filter (fun b => likeContains b.title t)

/-- `search_by_author(author)`: `filter(Book.author.contains(author)).all()`. -/
def search_by_author (st : List Book) (a : String) : List Book :=
  st.filter (fun b => likeContains b.author a)

/-- `get_by_created_by(created_by)`: exact equality filter
`Book.created_by == created_by`. -/
def get_by_created_by (st : List Book) (c : String) : List Book :=
  st.filter (fun b => b.created_by == c)

end SQLBookRepository

namespace BookService

/-- `BookService.list_books`: pass-through to the repository. -/
def list_books (st : List Book) (skip limit : Nat) : List Book :=
  SQLBookRepository.get_all st skip limit

/-- `BookService.search_books`: when any of the three filters is truthy,
call the repository's `search` and slice the result in memory with
`results[skip : skip + limit]`; otherwise delegate pagination to
`get_all`. -/
def search_books (st : List Book) (title author created_by : Option String)
    (skip limit : Nat) : List Book :=
  if truthy title || truthy author || truthy created_by then
    ((SQLBookRepository.search st title author created_by).drop skip).take limit
  else list_books st skip limit

end BookService

/-! ### Endpoint and validation layer -/

/-- The raw request body for `POST /books` before Pydantic validation:
each of `BookCreate`'s required fields may be missing. -/
structure BookCreatePayload where
  title : Option String
  author : Option String
  created_by : Option String
deriving DecidableEq, Repr

/-- A required string field with `min_length=1, max_length=maxLen`:
missing fields fail validation, present values must be 1..maxLen
characters. -/
def validRequiredField (v : Option String) (maxLen : Nat) : Bool :=
  match v with
  | none => false
  | some s => 1 ≤ s.length && s.length ≤ maxLen

/-- `BookCreate` from `app/schemas.py`: `title` 1–200, `author` 1–100,
`created_by` 1–50 characters, all required. -/
def validBookCreate (p : BookCreatePayload) : Bool :=
  validRequiredField p.title 200 && validRequiredField p.author 100 &&
    validRequiredField p.created_by 50

/-- The query-parameter constraints of `GET /books`:
`skip: int = Query(0, ge=0)` and `limit: int = Query(100, ge=1, le=1000)`. -/
def validListParams (skip limit : Int) : Bool :=
  0 ≤ skip && 1 ≤ limit && limit ≤ 1000

/-- The database plus the autoincrement counter that assigns primary
keys. -/
structure StoreState where
  books : List Book
  nextId : Nat
deriving DecidableEq, Repr

/-- `SQLBookRepository.create`: insert the row, letting the store assign
`id` (autoincrement) and `created_on` (`func.now()`, passed as `now`). -/
def SQLBookRepository.create (st : StoreState) (title author created_by now : String) :
    Book × StoreState :=
  let b : Book := ⟨st.nextId, title, author, now, created_by⟩
  (b, ⟨st.books ++ [b], st.nextId + 1⟩)

/-- `POST /books`: FastAPI validates the body against `BookCreate` before
the handler runs; an invalid body is answered with 422 and the service and
store are never reached. A valid body is turned into a row and persisted. -/
def postBooks (st : StoreState) (p : BookCreatePayload) (now : String) :
    Except Nat Book × StoreState :=
  if validBookCreate p then
    match p.title, p.author, p.created_by with
    | some t, some a, some c =>
        let r := SQLBookRepository.create st t a c now
        (Except.ok r.1, r.2)
    | _, _, _ => (Except.error 422, st)
  else (Except.error 422, st)

/-- `GET /books`: FastAPI validates `skip`/`limit` against their `Query`
bounds before the handler runs; out-of-range values are answered with 422
and the service is never reached. Valid parameters are forwarded to
`BookService.search_books`. -/
def getBooks (st : StoreState) (skip limit : Int) (title author created_by : Option String) :
    Except Nat (List Book) :=
  if validListParams skip limit then
    Except.ok (BookService.search_books st.books title author created_by skip.toNat limit.toNat)
  else Except.error 422

/-! ### Response serialization -/

/-- The JSON scalar values a serialized book contains. -/
inductive JsonValue where
  | jint (n : Nat)
  | jstr (s : String)
deriving DecidableEq, Repr

/-- Serialization of a row through the `BookResponse` schema
(`app/schemas.py`): Pydantic emits the declared fields under their own
names — `title` and `author` from `BookBase`, then `id`, `created_on`
(the timestamp, rendered as an ISO-8601 string) and `created_by`. The
schema has no alias configuration, so the JSON keys are the snake_case
field names. -/
def serializeBookResponse (b : Book) : List (String × JsonValue) :=
  [("title", JsonValue.jstr b.title), ("author", JsonValue.jstr b.author),
   ("id", JsonValue.jint b.id), ("created_on", JsonValue.jstr b.created_on),
   ("created_by", JsonValue.jstr b.created_by)]

/-! ### Sample data used by concrete instantiations -/

/-- The first record of the spec's seed: title "Clean Code", author
"Robert Martin". -/
def bkClean : Book := ⟨1, "Clean Code", "Robert Martin", "2024-01-01 00:00:00", "alice"⟩

/-- The second record of the spec's seed: title "Design Patterns", author
"Gang of Four". -/
def bkDesign : Book := ⟨2, "Design Patterns", "Gang of Four", "2024-01-02 00:00:00", "bob"⟩

/-- A record whose `created_by` strictly contains the string "alice". -/
def bkSubstr : Book := ⟨3, "Some Title", "Some Author", "2024-01-03 00:00:00", "alice123"⟩

/-- A store of 15 records with distinct primary keys, as in the spec's
pagination scenario. -/
def seed15 : List Book :=
  (List.range 15).map (fun i => ⟨i + 1, "T", "A", "t", "u"⟩)

/-! ### Helper lemmas -/

theorem likeAux_eq_true_iff (f : List Char → Bool) (s : List Char) :
    likeAux f s = true ↔ ∃ s₂, s₂ <:+ s ∧ f s₂ = true := by
  induction s with
  | nil =>
    simp [likeAux, List.suffix_nil]
  | cons c s ih =>
    simp only [likeAux, Bool.or_eq_true, ih, List.suffix_cons_iff]
    constructor
    · rintro (h | ⟨s₂, hs, hf⟩)
      · exact ⟨c :: s, Or.inl rfl, h⟩
      · exact ⟨s₂, Or.inr hs, hf⟩
    · rintro ⟨s₂, h1 | h1, hf⟩
      · subst h1
        exact Or.inl hf
      · exact Or.inr ⟨s₂, h1, hf⟩

/-- A wildcard-free pattern followed by a final `%` matches a string
exactly when the case-folded pattern is a prefix of the case-folded
string. -/
theorem likeMatchChars_literal_prefix_iff (ps : List Char) (hps : noWildcards ps = true)
    (s : List Char) :
    likeMatchChars (ps ++ ['%']) s = true ↔
      ps.map Char.toLower <+: s.map Char.toLower := by
  induction ps generalizing s with
  | nil =>
    simp only [List.nil_append, List.map_nil]
    constructor
    · intro _
      exact List.nil_prefix
    · intro _
      show likeAux (likeMatchChars []) s = true
      rw [likeAux_eq_true_iff]
      exact ⟨[], List.nil_suffix, rfl⟩
  | cons p ps ih =>
    have hsplit : (¬ p = '%' ∧ ¬ p = '_') ∧ noWildcards ps = true := by
      simpa [noWildcards, Bool.and_eq_true, Bool.not_eq_true', beq_eq_false_iff_ne,
        and_assoc] using hps
    obtain ⟨⟨hp1, hp2⟩, hps'⟩ := hsplit
    have hp1' : (p == '%') = false := beq_eq_false_iff_ne.mpr hp1
    have hp2' : (p == '_') = false := beq_eq_false_iff_ne.mpr hp2
    cases s with
    | nil =>
      rw [List.cons_append]
      simp [likeMatchChars, hp1']
    | cons c s' =>
      rw [List.cons_append]
      simp only [likeMatchChars, hp1', hp2', Bool.false_eq_true, if_false, Bool.false_or,
        Bool.and_eq_true, beq_iff_eq, List.map_cons, List.cons_prefix_cons]
      exact and_congr Iff.rfl (ih hps' s')

/-- For criteria without `%`/`_` wildcards, the generated
`LIKE '%crit%'` test is exactly ASCII-case-insensitive substring
containment. -/
theorem likeContains_eq_true_iff_infix (field pat : String)
    (h : noWildcards pat.data = true) :
    likeContains field pat = true ↔
      pat.data.map Char.toLower <:+: field.data.map Char.toLower := by
  show likeAux (likeMatchChars (pat.data ++ ['%'])) field.data = true ↔ _
  rw [likeAux_eq_true_iff]
  constructor
  · rintro ⟨s₂, hsuf, hm⟩
    rw [likeMatchChars_literal_prefix_iff pat.data h s₂] at hm
    exact List.infix_iff_prefix_suffix.mpr
      ⟨s₂.map Char.toLower, hm, List.IsSuffix.map _ hsuf⟩
  · intro hinf
    obtain ⟨t, hpre, hsuf⟩ := List.infix_iff_prefix_suffix.mp hinf
    obtain ⟨pre, hpre2⟩ := hsuf
    refine ⟨field.data.drop pre.length, List.drop_suffix _ _, ?_⟩
    rw [likeMatchChars_literal_prefix_iff pat.data h, List.map_drop]
    have ht : t = (field.data.map Char.toLower).drop pre.length := by
      rw [← hpre2, List.drop_left]
    rw [← ht]
    exact hpre

namespace SQLBookRepository

theorem setattrBook_id (b : Book) (f v : String) : (setattrBook b f v).id = b.id := by
  unfold setattrBook
  split_ifs <;> rfl

theorem setattrBook_title_of_ne (b : Book) (f v : String) (hf : f ≠ "title") :
    (setattrBook b f v).title = b.title := by
  unfold setattrBook
  split_ifs with h1 h2 h3 h4 <;> simp_all

theorem setattrBook_author_of_ne (b : Book) (f v : String) (hf : f ≠ "author") :
    (setattrBook b f v).author = b.author := by
  unfold setattrBook
  split_ifs with h1 h2 h3 h4 <;> simp_all

theorem setattrBook_created_on_of_ne (b : Book) (f v : String) (hf : f ≠ "created_on") :
    (setattrBook b f v).created_on = b.created_on := by
  unfold setattrBook
  split_ifs with h1 h2 h3 h4 <;> simp_all

theorem setattrBook_created_by_of_ne (b : Book) (f v : String) (hf : f ≠ "created_by") :
    (setattrBook b f v).created_by = b.created_by := by
  unfold setattrBook
  split_ifs with h1 h2 h3 h4 <;> simp_all

theorem applyUpdate_nil (b : Book) : applyUpdate b [] = b := rfl

theorem applyUpdate_cons (b : Book) (kv : String × Option String)
    (tl : List (String × Option String)) :
    applyUpdate b (kv :: tl) =
      applyUpdate
        (match kv.2 with
         | some v => if hasattrBook kv.1 then setattrBook b kv.1 v else b
         | none => b)
        tl := rfl

theorem applyUpdate_cons_none (b : Book) (k : String)
    (tl : List (String × Option String)) :
    applyUpdate b ((k, none) :: tl) = applyUpdate b tl := rfl

theorem applyUpdate_cons_some_pos (b : Book) (k v : String)
    (tl : List (String × Option String)) (hk : hasattrBook k = true) :
    applyUpdate b ((k, some v) :: tl) = applyUpdate (setattrBook b k v) tl := by
  show applyUpdate (if hasattrBook k = true then setattrBook b k v else b) tl = _
  rw [if_pos hk]

theorem applyUpdate_cons_some_neg (b : Book) (k v : String)
    (tl : List (String × Option String)) (hk : hasattrBook k = false) :
    applyUpdate b ((k, some v) :: tl) = applyUpdate b tl := by
  show applyUpdate (if hasattrBook k = true then setattrBook b k v else b) tl = _
  rw [if_neg (by simp [hk])]

/-- Generic frame property of the update loop: a field whose name never
occurs among the dict keys keeps its value, provided `setattrBook` for any
other key preserves it. -/
theorem applyUpdate_frame (g : Book → String) (n : String)
    (hg : ∀ b f v, f ≠ n → g (setattrBook b f v) = g b)
    (b : Book) (d : List (String × Option String)) (hd : n ∉ d.map Prod.fst) :
    g (applyUpdate b d) = g b := by
  induction d generalizing b with
  | nil => rfl
  | cons kv tl ih =>
    rw [List.map_cons, List.mem_cons, not_or] at hd
    rw [applyUpdate_cons]
    rcases kv with ⟨f, v⟩
    rcases v with _ | v
    · exact ih b hd.2
    · simp only
      split_ifs with hattr
      · rw [ih _ hd.2, hg b f v (fun h => hd.1 h.symm)]
      · exact ih b hd.2

theorem applyUpdate_id (b : Book) (d : List (String × Option String)) :
    (applyUpdate b d).id = b.id := by
  induction d generalizing b with
  | nil => rfl
  | cons kv tl ih =>
    rw [applyUpdate_cons]
    rcases kv with ⟨f, v⟩
    rcases v with _ | v
    · exact ih b
    · simp only
      split_ifs with hattr
      · rw [ih, setattrBook_id]
      · exact ih b

theorem get_by_id_eq_none_iff (st : List Book) (bid : Nat) :
    get_by_id st bid = none ↔ ∀ b ∈ st, b.id ≠ bid := by
  unfold get_by_id
  rw [List.find?_eq_none]
  simp

theorem get_by_id_isSome_iff (st : List Book) (bid : Nat) :
    (get_by_id st bid).isSome ↔ ∃ b ∈ st, b.id = bid := by
  unfold get_by_id
  rw [List.find?_isSome]
  simp

/-- Under primary-key uniqueness, deleting the row found for an id makes
later lookups of that id fail. -/
theorem get_by_id_eraseP (st : List Book) (bid : Nat)
    (hn : (st.map Book.id).Nodup) :
    get_by_id (st.eraseP (fun b => b.id == bid)) bid = none := by
  induction st with
  | nil => rfl
  | cons hd tl ih =>
    rw [List.map_cons, List.nodup_cons] at hn
    by_cases hhd : hd.id = bid
    · rw [List.eraseP_cons_of_pos (by simp [hhd])]
      rw [get_by_id_eq_none_iff]
      intro b hb hbid
      have : b.id ∈ List.map Book.id tl := List.mem_map_of_mem Book.id hb
      rw [hbid, ← hhd] at this
      exact hn.1 this
    · rw [List.eraseP_cons_of_neg (by simp [hhd])]
      unfold get_by_id at ih ⊢
      rw [List.find?_cons_of_neg _ (by simp [hhd])]
      exact ih hn.2

end SQLBookRepository

/-! ### Claims -/

/-- C1: for every store state and every search call supplying more than one
of the title/author/createdBy criteria, the adapter's `search` returns
exactly the records that satisfy at least one of the supplied criteria
(logical OR of the per-field matches), not only those satisfying all of
them. -/
theorem C1_search_or_semantics (st : List Book) (t a c : Option String)
    (h : 2 ≤ (truthy t).toNat + (truthy a).toNat + (truthy c).toNat) :
    SQLBookRepository.search st t a c =
      st.filter (fun b =>
        condMatches t b.title || condMatches a b.author || condMatches c b.created_by) ∧
    ∀ b, b ∈ SQLBookRepository.search st t a c ↔
      b ∈ st ∧ (condMatches t b.title = true ∨ condMatches a b.author = true ∨
        condMatches c b.created_by = true) := by
  have htr : (truthy t || truthy a || truthy c) = true := by
    cases ht : truthy t <;> cases ha : truthy a <;> cases hc : truthy c <;> simp_all
  constructor
  · unfold SQLBookRepository.search
    rw [if_pos htr]
  · intro b
    unfold SQLBookRepository.search
    rw [if_pos htr, List.mem_filter]
    simp [Bool.or_eq_true, or_assoc]

theorem C1_search_or_semantics_witness :
    2 ≤ (truthy (some "Design")).toNat + (truthy (some "Robert Martin")).toNat +
        (truthy (none : Option String)).toNat ∧
    SQLBookRepository.search [bkClean, bkDesign] (some "Design") (some "Robert Martin") none =
      [bkClean, bkDesign].filter (fun b =>
        condMatches (some "Design") b.title || condMatches (some "Robert Martin") b.author ||
          condMatches (none : Option String) b.created_by) :=
  ⟨by decide,
   (C1_search_or_semantics [bkClean, bkDesign] (some "Design") (some "Robert Martin") none
      (by decide)).1⟩

/-- C2, as stated, is false on the code: `SQLBookRepository.search` builds
`Book.created_by.contains(created_by)`, a substring condition, so a record
whose `created_by` merely contains the criterion is included. Witnessed by
a record whose `created_by` is "alice123" and the criterion "alice". -/
theorem C2_created_by_exact_counterexample :
    bkSubstr ∈ SQLBookRepository.search [bkSubstr] none none (some "alice") ∧
    bkSubstr.created_by ≠ "alice" := by
  constructor
  · decide
  · decide

/-- C2 (amended): the adapter's `search` matches a non-empty `createdBy`
criterion with the same case-insensitive `LIKE '%crit%'` containment it
uses for title and author — for a criterion without the `%`/`_` wildcards
this is a case-insensitive substring match — rather than exact equality;
exact equality on `created_by` holds only for the separate
`get_by_created_by` operation. -/
theorem C2_created_by_substring_matching (st : List Book) (c : String) (b : Book)
    (hc : c ≠ "") :
    (b ∈ SQLBookRepository.search st none none (some c) ↔
      b ∈ st ∧ likeContains b.created_by c = true) ∧
    (noWildcards c.data = true →
      (b ∈ SQLBookRepository.search st none none (some c) ↔
        b ∈ st ∧ c.data.map Char.toLower <:+: b.created_by.data.map Char.toLower)) ∧
    (b ∈ SQLBookRepository.get_by_created_by st c ↔ b ∈ st ∧ b.created_by = c) := by
  have hc' : (c == "") = false := beq_eq_false_iff_ne.mpr hc
  have hmem : b ∈ SQLBookRepository.search st none none (some c) ↔
      b ∈ st ∧ likeContains b.created_by c = true := by
    simp [SQLBookRepository.search, truthy, condMatches, hc, hc', List.mem_filter]
  refine ⟨hmem, ?_, ?_⟩
  · intro hw
    rw [hmem, likeContains_eq_true_iff_infix b.created_by c hw]
  · simp [SQLBookRepository.get_by_created_by, List.mem_filter]

theorem C2_created_by_substring_matching_witness :
    bkSubstr ∈ SQLBookRepository.search [bkSubstr] none none (some "alice") ∧
    bkSubstr ∉ SQLBookRepository.get_by_created_by [bkSubstr] "alice" :=
  have h := C2_created_by_substring_matching [bkSubstr] "alice" bkSubstr (by decide)
  ⟨(h.2.1 (by decide)).mpr ⟨by decide, by decide⟩,
   fun hmem => by exact absurd (h.2.2.mp hmem).2 (by decide)⟩

/-- C3, as stated, is false on the code: `contains` compiles to an
unescaped `LIKE '%crit%'`, in which `_` matches any single character and
`%` any run, so the title criterion "C_ean" matches the record titled
"Clean Code" although "c_ean" never occurs as a contiguous substring of
"clean code". -/
theorem C3_like_wildcard_counterexample :
    bkClean ∈ SQLBookRepository.search [bkClean] (some "C_ean") none none ∧
    ¬ ("C_ean".data.map Char.toLower <:+: bkClean.title.data.map Char.toLower) := by
  constructor
  · decide
  · decide

/-- C3 (amended): for every store state and every non-empty title or
author criterion containing neither LIKE wildcard (`%` or `_`), the
adapter's `search` matches that criterion as a case-insensitive substring
match: a record satisfies the criterion exactly when the criterion,
compared without regard to letter case, occurs as a contiguous substring
of the corresponding field. (Criteria containing a wildcard follow full
`LIKE` semantics instead.) -/
theorem C3_title_author_substring (st : List Book) (t a : String) (b : Book) :
    (t ≠ "" → noWildcards t.data = true →
      (b ∈ SQLBookRepository.search st (some t) none none ↔
        b ∈ st ∧ t.data.map Char.toLower <:+: b.title.data.map Char.toLower)) ∧
    (a ≠ "" → noWildcards a.data = true →
      (b ∈ SQLBookRepository.search st none (some a) none ↔
        b ∈ st ∧ a.data.map Char.toLower <:+: b.author.data.map Char.toLower)) := by
  constructor
  · intro h hw
    have h' : (t == "") = false := beq_eq_false_iff_ne.mpr h
    simp [SQLBookRepository.search, truthy, condMatches, h, h', List.mem_filter,
      likeContains_eq_true_iff_infix b.title t hw]
  · intro h hw
    have h' : (a == "") = false := beq_eq_false_iff_ne.mpr h
    simp [SQLBookRepository.search, truthy, condMatches, h, h', List.mem_filter,
      likeContains_eq_true_iff_infix b.author a hw]

theorem C3_title_author_substring_witness :
    bkClean ∈ SQLBookRepository.search [bkClean, bkDesign] (some "Clean") none none ∧
    SQLBookRepository.search [bkClean, bkDesign] (some "Clean") none none = [bkClean] :=
  ⟨((C3_title_author_substring [bkClean, bkDesign] "Clean" "x" bkClean).1
      (by decide) (by decide)).mpr ⟨by decide, by decide⟩,
   by decide⟩

/-- C4: the service's combined search-and-list operation has two paths:
with at least one truthy filter it calls the adapter's `search` (no
pagination pushed to the store) and returns the in-memory slice of the
search result from index `skip` up to `skip + limit`; with no truthy
filter it returns exactly the adapter's `get_all st skip limit`. -/
theorem C4_two_path_search_pagination (st : List Book) (t a c : Option String)
    (skip limit : Nat) :
    ((truthy t || truthy a || truthy c) = true →
      BookService.search_books st t a c skip limit =
        ((SQLBookRepository.search st t a c).drop skip).take limit ∧
      ∀ i, i < limit →
        (BookService.search_books st t a c skip limit)[i]? =
          (SQLBookRepository.search st t a c)[skip + i]?) ∧
    ((truthy t || truthy a || truthy c) = false →
      BookService.search_books st t a c skip limit =
        SQLBookRepository.get_all st skip limit) := by
  constructor
  · intro h
    constructor
    · unfold BookService.search_books
      rw [if_pos h]
    · intro i hi
      unfold BookService.search_books
      rw [if_pos h, List.getElem?_take, if_pos hi, List.getElem?_drop]
  · intro h
    unfold BookService.search_books
    rw [if_neg (by simp [h])]
    rfl

theorem C4_two_path_search_pagination_witness :
    BookService.search_books [bkClean, bkDesign] (some "a") none none 1 5 =
      ((SQLBookRepository.search [bkClean, bkDesign] (some "a") none none).drop 1).take 5 ∧
    BookService.search_books [bkClean, bkDesign] none none none 1 5 =
      SQLBookRepository.get_all [bkClean, bkDesign] 1 5 :=
  ⟨((C4_two_path_search_pagination [bkClean, bkDesign] (some "a") none none 1 5).1
      (by decide)).1,
   (C4_two_path_search_pagination [bkClean, bkDesign] none none none 1 5).2 (by decide)⟩

/-- C5: for every existing record and every partial-update payload,
`update` modifies only the fields present in the payload and leaves every
other field unchanged — in particular an update supplying only `title`
leaves `author`, `created_by` and `created_on` unchanged; when no record
with the id exists, `update` returns the absent marker and creates
nothing (the store is untouched). -/
theorem C5_partial_update (st : List Book) (bid : Nat)
    (d : List (String × Option String)) (b : Book) (t : String) :
    (SQLBookRepository.get_by_id st bid = none →
      SQLBookRepository.update st bid d = (none, st)) ∧
    (SQLBookRepository.get_by_id st bid = some b →
      SQLBookRepository.update st bid d =
        (some (SQLBookRepository.applyUpdate b d),
         st.map (fun x => if x.id == bid then SQLBookRepository.applyUpdate b d else x))) ∧
    SQLBookRepository.applyUpdate b [("title", some t)] = { b with title := t } ∧
    (SQLBookRepository.applyUpdate b d).id = b.id ∧
    ("title" ∉ d.map Prod.fst → (SQLBookRepository.applyUpdate b d).title = b.title) ∧
    ("author" ∉ d.map Prod.fst → (SQLBookRepository.applyUpdate b d).author = b.author) ∧
    ("created_by" ∉ d.map Prod.fst →
      (SQLBookRepository.applyUpdate b d).created_by = b.created_by) ∧
    ("created_on" ∉ d.map Prod.fst →
      (SQLBookRepository.applyUpdate b d).created_on = b.created_on) := by
  refine ⟨?_, ?_, ?_, SQLBookRepository.applyUpdate_id b d, ?_, ?_, ?_, ?_⟩
  · intro h
    unfold SQLBookRepository.update
    rw [h]
  · intro h
    unfold SQLBookRepository.update
    rw [h]
  · rfl
  · exact SQLBookRepository.applyUpdate_frame Book.title "title"
      SQLBookRepository.setattrBook_title_of_ne b d
  · exact SQLBookRepository.applyUpdate_frame Book.author "author"
      SQLBookRepository.setattrBook_author_of_ne b d
  · exact SQLBookRepository.applyUpdate_frame Book.created_by "created_by"
      SQLBookRepository.setattrBook_created_by_of_ne b d
  · exact SQLBookRepository.applyUpdate_frame Book.created_on "created_on"
      SQLBookRepository.setattrBook_created_on_of_ne b d

theorem C5_partial_update_witness :
    SQLBookRepository.update [bkClean] 99 [("title", some "New")] = (none, [bkClean]) ∧
    SQLBookRepository.update [bkClean] 1 [("title", some "New")] =
      (some (SQLBookRepository.applyUpdate bkClean [("title", some "New")]),
       [bkClean].map (fun x =>
         if x.id == 1 then SQLBookRepository.applyUpdate bkClean [("title", some "New")]
         else x)) ∧
    SQLBookRepository.applyUpdate bkClean [("title", some "New")] =
      { bkClean with title := "New" } :=
  have h1 := C5_partial_update [bkClean] 1 [("title", some "New")] bkClean "New"
  have h99 := C5_partial_update [bkClean] 99 [("title", some "New")] bkClean "New"
  ⟨h99.1 (by decide), h1.2.1 (by decide), h1.2.2.1⟩

/-- C6: `delete` returns true exactly when a record with the id existed
(and it is removed), false otherwise; after a delete of an id, `get_by_id`
on that id is absent and a second delete of the same id returns false, not
an error; a failed delete leaves the store untouched. Primary-key
uniqueness of `id` is the store invariant. -/
theorem C6_delete_semantics (st : List Book) (bid : Nat)
    (hn : (st.map Book.id).Nodup) :
    ((SQLBookRepository.delete st bid).1 = true ↔ ∃ b ∈ st, b.id = bid) ∧
    SQLBookRepository.get_by_id (SQLBookRepository.delete st bid).2 bid = none ∧
    (SQLBookRepository.delete (SQLBookRepository.delete st bid).2 bid).1 = false ∧
    ((SQLBookRepository.delete st bid).1 = false →
      (SQLBookRepository.delete st bid).2 = st) := by
  cases hid : SQLBookRepository.get_by_id st bid with
  | none =>
    have hdel : SQLBookRepository.delete st bid = (false, st) := by
      unfold SQLBookRepository.delete
      rw [hid]
    have hno := (SQLBookRepository.get_by_id_eq_none_iff st bid).mp hid
    refine ⟨?_, ?_, ?_, ?_⟩
    · rw [hdel]
      constructor
      · intro h
        exact absurd h (by simp)
      · rintro ⟨b, hb, hbid⟩
        exact absurd hbid (hno b hb)
    · rw [hdel]
      exact hid
    · rw [hdel]
      unfold SQLBookRepository.delete
      rw [hid]
    · intro _
      rw [hdel]
  | some b =>
    have hid' : st.find? (fun x => x.id == bid) = some b := hid
    have hdel : SQLBookRepository.delete st bid =
        (true, st.eraseP (fun x => x.id == bid)) := by
      unfold SQLBookRepository.delete
      rw [hid]
    have hb_mem : b ∈ st := List.mem_of_find?_eq_some hid'
    have hb_id : b.id = bid := by
      have := List.find?_some hid'
      simpa using this
    have hgone : SQLBookRepository.get_by_id
        (st.eraseP (fun x => x.id == bid)) bid = none :=
      SQLBookRepository.get_by_id_eraseP st bid hn
    refine ⟨?_, ?_, ?_, ?_⟩
    · rw [hdel]
      exact ⟨fun _ => ⟨b, hb_mem, hb_id⟩, fun _ => rfl⟩
    · rw [hdel]
      exact hgone
    · rw [hdel]
      unfold SQLBookRepository.delete
      rw [hgone]
    · rw [hdel]
      intro h
      exact absurd h (by simp)

theorem C6_delete_semantics_witness :
    (SQLBookRepository.delete [bkClean] 1).1 = true ∧
    SQLBookRepository.get_by_id (SQLBookRepository.delete [bkClean] 1).2 1 = none ∧
    (SQLBookRepository.delete (SQLBookRepository.delete [bkClean] 1).2 1).1 = false :=
  have h := C6_delete_semantics [bkClean] 1 (by decide)
  ⟨h.1.mpr ⟨bkClean, by decide, by decide⟩, h.2.1, h.2.2.1⟩

/-- C7: malformed or out-of-range requests — a missing required field, a
`title` over 200 / `author` over 100 / `created_by` over 50 characters, an
empty required string, `skip` below 0, or `limit` outside 1–1000 — fail
validation, are answered with a 422 error before the service or store is
reached, and leave the store state unchanged. -/
theorem C7_validation_before_service (st : StoreState) (p : BookCreatePayload)
    (now : String) (skip limit : Int) (t a c : Option String) (s : String) :
    (validBookCreate p = false → postBooks st p now = (Except.error 422, st)) ∧
    (validListParams skip limit = false → getBooks st skip limit t a c = Except.error 422) ∧
    (p.title = none → validBookCreate p = false) ∧
    (p.author = none → validBookCreate p = false) ∧
    (p.created_by = none → validBookCreate p = false) ∧
    (p.title = some s → s.length = 0 ∨ 200 < s.length → validBookCreate p = false) ∧
    (p.author = some s → s.length = 0 ∨ 100 < s.length → validBookCreate p = false) ∧
    (p.created_by = some s → s.length = 0 ∨ 50 < s.length → validBookCreate p = false) ∧
    (skip < 0 → validListParams skip limit = false) ∧
    (limit < 1 ∨ 1000 < limit → validListParams skip limit = false) := by
  refine ⟨?_, ?_, ?_, ?_, ?_, ?_, ?_, ?_, ?_, ?_⟩
  · intro h
    unfold postBooks
    rw [if_neg (by simp [h])]
  · intro h
    unfold getBooks
    rw [if_neg (by simp [h])]
  · intro h
    simp [validBookCreate, validRequiredField, h]
  · intro h
    simp [validBookCreate, validRequiredField, h]
  · intro h
    simp [validBookCreate, validRequiredField, h]
  · intro hsome hlen
    have hbad : (1 ≤ s.length && s.length ≤ 200) = false := by
      rcases hlen with h0 | h0
      · simp [h0]
      · simp [show ¬ s.length ≤ 200 by omega]
    simp [validBookCreate, validRequiredField, hsome, hbad]
  · intro hsome hlen
    have hbad : (1 ≤ s.length && s.length ≤ 100) = false := by
      rcases hlen with h0 | h0
      · simp [h0]
      · simp [show ¬ s.length ≤ 100 by omega]
    simp [validBookCreate, validRequiredField, hsome, hbad]
  · intro hsome hlen
    have hbad : (1 ≤ s.length && s.length ≤ 50) = false := by
      rcases hlen with h0 | h0
      · simp [h0]
      · simp [show ¬ s.length ≤ 50 by omega]
    simp [validBookCreate, validRequiredField, hsome, hbad]
  · intro h
    simp [validListParams, show ¬ (0 : Int) ≤ skip by omega]
  · intro h
    rcases h with h0 | h0
    · simp [validListParams, show ¬ (1 : Int) ≤ limit by omega]
    · simp [validListParams, show ¬ limit ≤ (1000 : Int) by omega]

theorem C7_validation_before_service_witness :
    postBooks ⟨[], 1⟩ ⟨none, some "A", some "u"⟩ "t" = (Except.error 422, ⟨[], 1⟩) ∧
    getBooks ⟨[], 1⟩ (-1) 100 none none none = Except.error 422 :=
  have h := C7_validation_before_service ⟨[], 1⟩ ⟨none, some "A", some "u"⟩ "t"
    (-1) 100 none none none "x"
  ⟨h.1 (by decide), h.2.1 (by decide)⟩

/-- C8, as stated, is false on the code: `BookResponse` declares the
snake_case fields `created_on` and `created_by` with no alias
configuration, so the serialized record carries no `createdAt` or
`createdBy` key. -/
theorem C8_response_field_names_counterexample :
    "createdAt" ∉ (serializeBookResponse bkClean).map Prod.fst ∧
    "createdBy" ∉ (serializeBookResponse bkClean).map Prod.fst ∧
    "created_on" ∈ (serializeBookResponse bkClean).map Prod.fst ∧
    "created_by" ∈ (serializeBookResponse bkClean).map Prod.fst := by
  refine ⟨?_, ?_, ?_, ?_⟩ <;> decide

/-- C8 (amended): every successful record response body is a JSON object
with exactly the fields `title` (string), `author` (string), `id`
(integer), `created_on` (the creation timestamp, serialized as a string)
and `created_by` (string) — the schema's own snake_case names. -/
theorem C8_response_field_names (b : Book) :
    (serializeBookResponse b).map Prod.fst =
      ["title", "author", "id", "created_on", "created_by"] ∧
    ("id", JsonValue.jint b.id) ∈ serializeBookResponse b ∧
    ("title", JsonValue.jstr b.title) ∈ serializeBookResponse b ∧
    ("author", JsonValue.jstr b.author) ∈ serializeBookResponse b ∧
    ("created_on", JsonValue.jstr b.created_on) ∈ serializeBookResponse b ∧
    ("created_by", JsonValue.jstr b.created_by) ∈ serializeBookResponse b := by
  refine ⟨rfl, ?_, ?_, ?_, ?_, ?_⟩ <;> simp [serializeBookResponse]

/-- C9: on a store of at least 15 records with unique primary keys, the
unfiltered list with `skip=5, limit=5` returns exactly the 6th through
10th records in store order, disjoint from the result with
`skip=0, limit=5`. -/
theorem C9_pagination_window (st : List Book) (h15 : 15 ≤ st.length)
    (hn : (st.map Book.id).Nodup) :
    (SQLBookRepository.get_all st 5 5).length = 5 ∧
    (∀ i, i < 5 → (SQLBookRepository.get_all st 5 5)[i]? = st[5 + i]?) ∧
    List.Disjoint (SQLBookRepository.get_all st 0 5) (SQLBookRepository.get_all st 5 5) := by
  refine ⟨?_, ?_, ?_⟩
  · unfold SQLBookRepository.get_all
    rw [List.length_take, List.length_drop]
    omega
  · intro i hi
    unfold SQLBookRepository.get_all
    rw [List.getElem?_take, if_pos hi, List.getElem?_drop]
  · intro x hx0 hx5
    unfold SQLBookRepository.get_all at hx0 hx5
    rw [List.drop_zero] at hx0
    have hx5' : x ∈ st.drop 5 := List.take_subset 5 _ hx5
    have hsplit : st.take 5 ++ st.drop 5 = st := List.take_append_drop 5 st
    have hnapp : ((st.take 5).map Book.id ++ (st.drop 5).map Book.id).Nodup := by
      rw [← List.map_append, hsplit]
      exact hn
    have hdisj := (List.nodup_append.mp hnapp).2.2
    exact hdisj (List.mem_map_of_mem Book.id hx0) (List.mem_map_of_mem Book.id hx5')

theorem C9_pagination_window_witness :
    (SQLBookRepository.get_all seed15 5 5).length = 5 ∧
    List.Disjoint (SQLBookRepository.get_all seed15 0 5)
      (SQLBookRepository.get_all seed15 5 5) :=
  have h := C9_pagination_window seed15 (by decide) (by decide)
  ⟨h.1, h.2.2⟩

/-- C10: the adapter's update loop silently skips every dict entry whose
value is `None` and every key that is not an attribute of the record; such
entries leave the record unchanged, the operation still succeeds when the
record exists, and no field is set through a `None` value. -/
theorem C10_update_skips_none_and_unknown (b : Book)
    (d : List (String × Option String)) (st : List Book) (bid : Nat) (f v : String) :
    SQLBookRepository.applyUpdate b d =
      SQLBookRepository.applyUpdate b
        (d.filter (fun kv => kv.2.isSome && SQLBookRepository.hasattrBook kv.1)) ∧
    SQLBookRepository.applyUpdate b [(f, none)] = b ∧
    (SQLBookRepository.hasattrBook f = false →
      SQLBookRepository.applyUpdate b [(f, some v)] = b) ∧
    ((SQLBookRepository.get_by_id st bid).isSome →
      (SQLBookRepository.update st bid d).1.isSome) := by
  refine ⟨?_, rfl, ?_, ?_⟩
  · induction d generalizing b with
    | nil => rfl
    | cons kv tl ih =>
      rcases kv with ⟨k, val⟩
      rw [List.filter_cons]
      rcases val with _ | v'
      · rw [SQLBookRepository.applyUpdate_cons_none]
        simpa using ih b
      · simp only [Option.isSome_some, Bool.true_and]
        by_cases hk : SQLBookRepository.hasattrBook k = true
        · rw [if_pos hk, SQLBookRepository.applyUpdate_cons_some_pos b k v' tl hk,
            SQLBookRepository.applyUpdate_cons_some_pos _ k v' _ hk]
          exact ih (SQLBookRepository.setattrBook b k v')
        · have hk' : SQLBookRepository.hasattrBook k = false := by
            simpa using hk
          rw [if_neg (by simp [hk']),
            SQLBookRepository.applyUpdate_cons_some_neg b k v' tl hk']
          exact ih b
  · intro h
    rw [SQLBookRepository.applyUpdate_cons]
    simp [h, SQLBookRepository.applyUpdate_nil]
  · intro h
    unfold SQLBookRepository.update
    cases hid : SQLBookRepository.get_by_id st bid with
    | none => rw [hid] at h; exact absurd h (by simp)
    | some b' => simp

theorem C10_update_skips_none_and_unknown_witness :
    SQLBookRepository.applyUpdate bkClean [("publisher", some "X"), ("author", none)] =
      bkClean ∧
    (SQLBookRepository.update [bkClean] 1
      [("publisher", some "X"), ("author", none)]).1.isSome :=
  have h := C10_update_skips_none_and_unknown bkClean
    [("publisher", some "X"), ("author", none)] [bkClean] 1 "publisher" "X"
  ⟨h.1.trans (by decide), h.2.2.2 (by decide)⟩

end BookApp
